import Mathlib

/-! # diy: the `sort` and `kdtree` drivers and the k-d tree example

A shallow embedding of `include/diy/algorithms.hpp` (the `sort` and `kdtree`
entry points) and of the parts of `examples/reduce/kd-tree.cpp` that build the
initial links and check the result (`intersects`, `operator==`, `operator!=`,
the neighbor-bounds test of `verify_block`, the link loop of `main`).

Conventions of the embedding:

* C++ `int` values are `Int`.  The bitwise `&` of the k-d tree guard is
  `Int.land`, the two's complement conjunction; it agrees with the 32-bit `&`
  on every pair of values that fit in an `int`.  The sum of the link sizes is
  taken in `Int`: it is a count of neighbor entries held by one process, and
  the source gives no meaning to a signed sum that leaves the range of `int`.
* A coordinate (`float` in the source) is an element of a linearly ordered
  type `α`.  The source only compares coordinates (`<`, `<=`, `==`, `!=`);
  the floats other than NaN are linearly ordered by these comparisons.
* `Master` is the part of `diy::Master` that the two drivers read and write:
  the links of the local blocks, the expected message count and the immediate
  flag.  The calls into `reduce` and `all_to_all`, whose code lives in other
  headers, are parameters of the drivers (`Externals`), and each driver
  records the calls it makes, in order.
* The headers `link.hpp` and `detail/algorithms/kdtree.hpp` are not among the
  sources.  What is needed of them is modelled from the specification, and
  each such definition says so.
-/

namespace Diy

/-! ## Data model -/

/-- The type `diy::ContinuousBounds`: the arrays `min` and `max`, indexed by dimension. -/
structure Bounds (α : Type) where
  min : Nat → α
  max : Nat → α

/-- The type `diy::BlockID`, a gid and the rank that owns it. -/
structure BlockID where
  gid : Int
  proc : Int
deriving DecidableEq, Repr

/-- The type `diy::RegularContinuousLink` as the drivers and the example use it: the
core and the bounds of the block, and the neighbor table kept as three
parallel sequences (targets, direction tags, neighbor bounds).  A direction
tag (`diy::Direction`) is the integer value of the enumerator. -/
structure RCLink (α : Type) where
  dim : Nat
  core : Bounds α
  bounds : Bounds α
  neighbors : List BlockID
  directions : List Nat
  nbr_bounds : List (Bounds α)

/-- The part of `diy::Master` read and written by `sort` and `kdtree`:
`link(i)` for `0 <= i < size()`, `expected` and `immediate`. -/
structure Master (α : Type) where
  links : List (RCLink α)
  expected : Int
  immediate : Bool

/-- The type `diy::Assigner`: the drivers only call `nblocks()`. -/
structure Assigner where
  nprocs : Int
  nblocks : Int
deriving DecidableEq, Repr

/-- Arguments of the `detail::KDTreePartition` constructor (the member pointer
`points` selects a field of the block type and carries no value). -/
structure KDTreePartition where
  dim : Int
  bins : Nat
deriving DecidableEq, Repr

/-- Arguments of the `detail::KDTreePartners` constructor. -/
structure KDTreePartners (α : Type) where
  dim : Int
  nblocks : Int
  wrap : Bool
  domain : Bounds α

/-- Arguments of the `detail::SampleSort` constructor that carry a value. -/
structure SampleSort where
  num_samples : Nat
deriving DecidableEq, Repr

/-- Arguments of the `RegularSwapPartners` constructor. -/
structure RegularSwapPartners where
  dim : Int
  nblocks : Int
  k : Int
deriving DecidableEq, Repr

/-- The collaborators called by the drivers whose code is in other headers
(`reduce.hpp`, `reduce-operations.hpp`): what each call does to the master. -/
structure Externals (α : Type) where
  reduce_kdtree : Assigner → KDTreePartners α → KDTreePartition → Master α → Master α
  reduce_sample : Assigner → RegularSwapPartners → SampleSort → Master α → Master α
  all_to_all : Assigner → SampleSort → Int → Master α → Master α

/-- A call made by a driver, with the master as it is when the call is made. -/
inductive Call (α : Type) where
  | error_message (nblocks : Int)
  | abort
  | reduce (master : Master α)
  | all_to_all (master : Master α)

/-- The outcome of running a driver: the master it leaves, the calls it made
in order, and whether it ended in `std::abort()`. -/
structure Run (α : Type) where
  master : Master α
  calls : List (Call α)
  aborted : Bool

/-! ## `Master` and `Link` accessors -/

/-- The accessor `Master::size()`. -/
def Master.size {α : Type} (m : Master α) : Nat := m.links.length

/-- The setter `Master::set_expected`. -/
def Master.set_expected {α : Type} (m : Master α) (e : Int) : Master α :=
  { m with expected := e }

/-- The setter `Master::set_immediate`. -/
def Master.set_immediate {α : Type} (m : Master α) (b : Bool) : Master α :=
  { m with immediate := b }

/-- A write through the pointer returned by `master.link(i)`. -/
def Master.modify_link {α : Type} (m : Master α) (i : Nat) (f : RCLink α → RCLink α) :
    Master α :=
  match m.links[i]? with
  | some l => { m with links := m.links.set i (f l) }
  | none => m

/-- Modelled from the spec: `Link::size_unique()` (link.hpp), "count of
distinct target ids". -/
def RCLink.size_unique {α : Type} (l : RCLink α) : Int :=
  ((l.neighbors.map BlockID.gid).dedup.length : Int)

/-- The value of `master.link(i)->size_unique()`. -/
def Master.size_unique_at {α : Type} (m : Master α) (i : Nat) : Int :=
  match m.links[i]? with
  | some l => l.size_unique
  | none => 0

/-! ## `diy::kdtree` (algorithms.hpp, lines 58-92) -/

/-- The guard of `diy::kdtree` (line 67):
`assigner.nblocks() & (assigner.nblocks() - 1)`, read as a condition
(non-zero is true). -/
def kdtreeGuard (nblocks : Int) : Bool :=
  Int.land nblocks (nblocks - 1) != 0

/-- Lines 75-80: for every local index, `link->core() = domain` and
`link->bounds() = domain`. -/
def kdtree_set_domain {α : Type} (domain : Bounds α) (master : Master α) : Master α :=
  (List.range master.size).foldl
    (fun m i => m.modify_link i fun link => { link with core := domain, bounds := domain })
    master

/-- Lines 88-90: `int expected = 0; for (...) expected += master.link(i)->size_unique();`. -/
def kdtree_expected {α : Type} (master : Master α) : Int :=
  (List.range master.size).foldl (fun expected i => expected + master.size_unique_at i) 0

/-- The driver `diy::kdtree` (lines 58-92). -/
def kdtree {α : Type} (ext : Externals α) (master : Master α) (assigner : Assigner)
    (dim : Int) (domain : Bounds α) (bins : Nat) (wrap : Bool) : Run α :=
  if kdtreeGuard assigner.nblocks then
    { master := master
      calls := [Call.error_message assigner.nblocks, Call.abort]
      aborted := true }
  else
    let m1 := kdtree_set_domain domain master
    let kdtree_partition : KDTreePartition := { dim := dim, bins := bins }
    let partners : KDTreePartners α :=
      { dim := dim, nblocks := assigner.nblocks, wrap := wrap, domain := domain }
    let m2 := ext.reduce_kdtree assigner partners kdtree_partition m1
    { master := m2.set_expected (kdtree_expected m2)
      calls := [Call.reduce m1]
      aborted := false }

/-! ## `diy::sort` (algorithms.hpp, lines 19-56) -/

/-- The driver `diy::sort` with a comparison (lines 19-45). -/
def sort {α : Type} (ext : Externals α) (master : Master α) (assigner : Assigner)
    (num_samples : Nat) (k : Int) (samples_only : Bool) : Run α :=
  let immediate := master.immediate
  let m0 := master.set_immediate false
  let sorter : SampleSort := { num_samples := num_samples }
  let partners : RegularSwapPartners := { dim := 1, nblocks := assigner.nblocks, k := k }
  let m1 := ext.reduce_sample assigner partners sorter m0
  if !samples_only then
    let m2 := ext.all_to_all assigner sorter k m1
    { master := m2.set_immediate immediate
      calls := [Call.reduce m0, Call.all_to_all m1]
      aborted := false }
  else
    { master := m1.set_immediate immediate
      calls := [Call.reduce m0]
      aborted := false }

/-- The overload of `diy::sort` without a comparison (lines 47-56): `std::less`, and
`samples_only` takes its default `false`. -/
def sort_less {α : Type} (ext : Externals α) (master : Master α) (assigner : Assigner)
    (num_samples : Nat) (k : Int) : Run α :=
  sort ext master assigner num_samples k false

/-! ## The example (kd-tree.cpp) -/

/-- The constant `DIM` (kd-tree.cpp line 19). -/
def DIM : Nat := 3

/-- The function `intersects` (kd-tree.cpp lines 115-125). -/
def intersects {α : Type} [LinearOrder α] (x y : Bounds α) (dim : Nat) (wrap : Bool)
    (domain : Bounds α) : Bool :=
  if wrap && (decide (x.min dim = domain.min dim) && decide (y.max dim = domain.max dim)) then
    true
  else if wrap && (decide (y.min dim = domain.min dim) && decide (x.max dim = domain.max dim)) then
    true
  else
    decide (x.min dim ≤ y.max dim) && decide (y.min dim ≤ x.max dim)

/-- Modelled from the spec: the `RegularContinuousLink(dim, core, bounds)`
constructor (link.hpp); the link starts with no neighbor entry. -/
def RCLink.new {α : Type} (dim : Nat) (core bounds : Bounds α) : RCLink α :=
  { dim := dim, core := core, bounds := bounds, neighbors := [], directions := [],
    nbr_bounds := [] }

/-- Modelled from the spec: `add_neighbor` (link.hpp) appends a target. -/
def RCLink.add_neighbor {α : Type} (l : RCLink α) (nbr : BlockID) : RCLink α :=
  { l with neighbors := l.neighbors ++ [nbr] }

/-- Modelled from the spec: `add_direction` (link.hpp) appends a direction tag. -/
def RCLink.add_direction {α : Type} (l : RCLink α) (dir : Nat) : RCLink α :=
  { l with directions := l.directions ++ [dir] }

/-- Modelled from the spec: `add_bounds` (link.hpp) appends a neighbor's bounds. -/
def RCLink.add_bounds {α : Type} (l : RCLink α) (b : Bounds α) : RCLink α :=
  { l with nbr_bounds := l.nbr_bounds ++ [b] }

/-- The link that `main` builds for one local gid (kd-tree.cpp lines 271-287). -/
def initial_link {α : Type} (wrap : Bool) (gid rank : Int) (domain : Bounds α) : RCLink α :=
  let l := RCLink.new DIM domain domain
  if wrap then
    (List.range DIM).foldl
      (fun l j =>
        (List.range 2).foldl
          (fun l k =>
            let nbr : BlockID := { gid := gid, proc := rank }
            let l := l.add_neighbor nbr
            let dir : Nat := 1 <<< (2 * j + k)
            let l := l.add_direction dir
            l.add_bounds domain)
          l)
      l
  else
    l

/-- The operator `==` on bounds (kd-tree.cpp lines 94-106): the `min` and the
`max` agree on the first `DIM` coordinates. -/
def Bounds.equal {α : Type} [DecidableEq α] (x y : Bounds α) : Bool :=
  (List.range DIM).all fun i => decide (x.min i = y.min i) && decide (x.max i = y.max i)

/-- The operator `!=` on bounds (kd-tree.cpp lines 108-113). -/
def Bounds.not_equal {α : Type} [DecidableEq α] (x y : Bounds α) : Bool :=
  !(Bounds.equal x y)

/-- The test of `verify_block` for neighbor `i` (kd-tree.cpp lines 143-144):
`link->bounds(i) != b->block_bounds[nbr_gid]` with `nbr_gid = link->target(i).gid`;
true means that the warning "bounds don't match" is printed.  The result is
`none` when one of the three indices is out of range. -/
def neighbor_bounds_mismatch {α : Type} [DecidableEq α] (link : RCLink α)
    (block_bounds : List (Bounds α)) (i : Nat) : Option Bool :=
  match link.neighbors[i]?, link.nbr_bounds[i]? with
  | some target, some bounds_i =>
    if target.gid < 0 then none
    else
      match block_bounds[target.gid.toNat]? with
      | some nbr_bounds => some (Bounds.not_equal bounds_i nbr_bounds)
      | none => none
  | _, _ => none

/-! ## The link rebuild of the k-d tree partitioner

`detail/algorithms/kdtree.hpp`, which holds the partition rounds and the link
rebuild that `kdtree` runs through `reduce`, is not among the sources; the
rebuild is modelled from section 4.6, step 6, of the specification, without
wrap.  Its input is the final leaf box of every gid, whatever the rounds made
it. -/

/-- Modelled from the spec: the adjacency test of the link rebuild in
detail/algorithms/kdtree.hpp, "two boxes are adjacent along dimension d if
their extents overlap (or touch) in every dimension and are adjacent
(touching) in d". -/
def adjacent_along {α : Type} [LinearOrder α] (dims : Nat) (x y : Bounds α) (d : Nat) : Bool :=
  ((List.range dims).all fun j => decide (x.min j ≤ y.max j) && decide (y.min j ≤ x.max j)) &&
    (decide (x.max d = y.min d) || decide (y.max d = x.min d))

/-- Modelled from the spec: the gids that the link rebuild in
detail/algorithms/kdtree.hpp lists for `gid`, "testing adjacency of leaf
bounds across all other leaves in every dimension". -/
def rebuild_targets {α : Type} [LinearOrder α] (dims nblocks : Nat) (leaf : Nat → Bounds α)
    (gid : Nat) : List Nat :=
  (List.range nblocks).filter fun g =>
    g != gid && (List.range dims).any fun d => adjacent_along dims (leaf gid) (leaf g) d

/-- Modelled from the spec: the link rebuild in detail/algorithms/kdtree.hpp,
which "replaces every Link wholesale with a freshly computed adjacency": the
bounds of the link become the leaf of the block, and the three parallel fields
get one entry per listed neighbor (its gid and rank, its direction tag, its
leaf).  The specification does not say how a tag is computed without wrap;
`direction_of` stands for it. -/
def rebuild_link {α : Type} [LinearOrder α] (dims nblocks : Nat) (rank_of : Nat → Int)
    (direction_of : Bounds α → Bounds α → Nat) (leaf : Nat → Bounds α) (gid : Nat)
    (link : RCLink α) : RCLink α :=
  { link with
    bounds := leaf gid
    neighbors := (rebuild_targets dims nblocks leaf gid).map fun (g : Nat) =>
      ({ gid := (g : Int), proc := rank_of g } : BlockID)
    directions := (rebuild_targets dims nblocks leaf gid).map fun (g : Nat) =>
      direction_of (leaf gid) (leaf g)
    nbr_bounds := (rebuild_targets dims nblocks leaf gid).map leaf }

/-- Modelled from the spec: what `exchange_bounds` (kd-tree.cpp lines 188-208)
gathers through the all-to-all of section 4.5, whose driver is in reduce.hpp:
entry `g` of `block_bounds` is `link->bounds()` of the block with gid `g`. -/
def gathered_block_bounds {α : Type} (nblocks : Nat) (final_link : Nat → RCLink α) :
    List (Bounds α) :=
  (List.range nblocks).map fun g => (final_link g).bounds

/-! ## Concrete inputs used to instantiate the theorems -/

/-- The domain of the example's `main`: `[0, 1000]` in every dimension. -/
def example_domain : Bounds Int := { min := fun _ => 0, max := fun _ => 1000 }

/-- Collaborators that leave the master as it is. -/
def idle_externals : Externals Int :=
  { reduce_kdtree := fun _ _ _ m => m
    reduce_sample := fun _ _ _ m => m
    all_to_all := fun _ _ _ m => m }

/-- A master with two local blocks, gids 0 and 1, built in wrap mode. -/
def example_master : Master Int :=
  { links := [initial_link true 0 0 example_domain, initial_link true 1 0 example_domain]
    expected := 7
    immediate := true }

/-- The lower half of the example domain along dimension 0. -/
def example_box_low : Bounds Int :=
  { min := fun _ => 0, max := fun j => if j = 0 then 500 else 1000 }

/-- The upper half of the example domain along dimension 0. -/
def example_box_high : Bounds Int :=
  { min := fun j => if j = 0 then 500 else 0, max := fun _ => 1000 }

/-- Two leaves: gid 0 holds the lower half of the example domain, every other
gid the upper half. -/
def example_leaf (g : Nat) : Bounds Int :=
  if g = 0 then example_box_low else example_box_high

/-- A master whose two links hold boxes other than the example domain: gid 0
has the lower half as core and bounds, gid 1 the upper half. -/
def example_stale_master : Master Int :=
  { links := [initial_link true 0 0 example_box_low, initial_link false 1 0 example_box_high]
    expected := 7
    immediate := true }

/-! ## Lemmas on the guard -/

theorem land_natCast (a b : ℕ) : Int.land (a : ℤ) (b : ℤ) = ((a &&& b : ℕ) : ℤ) := rfl

theorem nat_land_pred_eq_zero_iff (n : ℕ) (hn : 1 ≤ n) :
    n &&& (n - 1) = 0 ↔ ∃ m : ℕ, n = 2 ^ m := by
  induction n using Nat.strong_induction_on with
  | _ n ih =>
    constructor
    · intro h
      have hdiv : n / 2 &&& (n - 1) / 2 = 0 := by
        rw [← Nat.and_div_two, h]
      rcases Nat.even_or_odd' n with ⟨k, rfl | rfl⟩
      · have e1 : 2 * k / 2 = k := by omega
        have e2 : (2 * k - 1) / 2 = k - 1 := by omega
        rw [e1, e2] at hdiv
        obtain ⟨m, hm⟩ := (ih k (by omega) (by omega)).1 hdiv
        exact ⟨m + 1, by rw [hm, pow_succ]; ring⟩
      · have e1 : (2 * k + 1) / 2 = k := by omega
        have e2 : (2 * k + 1 - 1) / 2 = k := by omega
        rw [e1, e2, Nat.and_self] at hdiv
        exact ⟨0, by simp [hdiv]⟩
    · rintro ⟨m, rfl⟩
      simp

theorem kdtreeGuard_of_one_le (n : Int) (hn : 1 ≤ n) :
    kdtreeGuard n = true ↔ ¬ ∃ m : ℕ, n = 2 ^ m := by
  obtain ⟨k, rfl⟩ := Int.eq_ofNat_of_zero_le (by omega : 0 ≤ n)
  have hk : 1 ≤ k := by exact_mod_cast hn
  have e : ((k : ℤ) - 1) = ((k - 1 : ℕ) : ℤ) := by omega
  unfold kdtreeGuard
  rw [e, land_natCast]
  simp only [bne_iff_ne, ne_eq, Nat.cast_eq_zero]
  rw [nat_land_pred_eq_zero_iff k hk]
  constructor
  · rintro h ⟨m, hm⟩
    exact h ⟨m, by exact_mod_cast hm⟩
  · rintro h ⟨m, hm⟩
    exact h ⟨m, by exact_mod_cast hm⟩

theorem kdtreeGuard_two_pow (m : ℕ) : kdtreeGuard (2 ^ m) = false := by
  have h1 : (1 : Int) ≤ 2 ^ m := by
    have := pow_pos (by norm_num : (0 : Int) < 2) m
    omega
  have h := (kdtreeGuard_of_one_le (2 ^ m) h1).not
  simp only [not_not] at h
  have : ¬ kdtreeGuard (2 ^ m) = true := h.2 ⟨m, rfl⟩
  simpa using this

theorem kdtreeGuard_zero : kdtreeGuard 0 = false := by
  have h : Int.land 0 (-1) = 0 := by
    show ((Nat.ldiff 0 0 : ℕ) : ℤ) = 0
    simp [Nat.ldiff]
  simp [kdtreeGuard, h]

theorem kdtree_aborted_eq_guard {α : Type} (ext : Externals α) (master : Master α)
    (assigner : Assigner) (dim : Int) (domain : Bounds α) (bins : Nat) (wrap : Bool) :
    (kdtree ext master assigner dim domain bins wrap).aborted = kdtreeGuard assigner.nblocks := by
  unfold kdtree
  split <;> simp_all

/-! ## Lemmas on the two loops of `kdtree` -/

theorem foldl_modify_link_range {α : Type} (f : RCLink α → RCLink α) (l : List (RCLink α))
    (e : Int) (b : Bool) (n : Nat) (hn : n ≤ l.length) :
    (List.range n).foldl (fun m i => Master.modify_link m i f)
        ({ links := l, expected := e, immediate := b } : Master α)
      = { links := (l.take n).map f ++ l.drop n, expected := e, immediate := b } := by
  induction n with
  | zero => simp
  | succ n ih =>
    have hlt : n < l.length := by omega
    rw [List.range_succ, List.foldl_append, ih (by omega)]
    simp only [List.foldl_cons, List.foldl_nil, Master.modify_link]
    have hlen : ((l.take n).map f).length = n := by simp; omega
    have hget : ((l.take n).map f ++ l.drop n)[n]? = some l[n] := by
      rw [List.getElem?_append_right (by omega), hlen]
      simp [List.getElem?_drop, hlt]
    rw [hget]
    simp only
    congr 1
    rw [List.take_succ, List.getElem?_eq_getElem hlt]
    simp only [Option.toList, List.map_append, List.map_cons, List.map_nil, List.append_assoc,
      List.singleton_append]
    rw [List.set_append_right _ _ (by omega), hlen, Nat.sub_self]
    rw [List.drop_eq_getElem_cons hlt, List.set_cons_zero]

theorem kdtree_set_domain_eq {α : Type} (domain : Bounds α) (master : Master α) :
    kdtree_set_domain domain master
      = { master with
          links := master.links.map fun link => { link with core := domain, bounds := domain } } := by
  obtain ⟨l, e, b⟩ := master
  unfold kdtree_set_domain Master.size
  rw [foldl_modify_link_range _ l e b l.length (le_refl _)]
  simp

theorem foldl_size_unique_range {α : Type} (m : Master α) (n : Nat) (hn : n ≤ m.links.length) :
    (List.range n).foldl (fun expected i => expected + m.size_unique_at i) 0
      = ((m.links.take n).map RCLink.size_unique).sum := by
  induction n with
  | zero => simp
  | succ n ih =>
    have hlt : n < m.links.length := by omega
    rw [List.range_succ, List.foldl_append, ih (by omega)]
    simp only [List.foldl_cons, List.foldl_nil, Master.size_unique_at]
    rw [List.take_succ, List.getElem?_eq_getElem hlt]
    simp only [Option.toList, List.map_append, List.sum_append, List.map_cons, List.map_nil,
      List.sum_cons, List.sum_nil, add_zero]

theorem kdtree_expected_eq {α : Type} (m : Master α) :
    kdtree_expected m = (m.links.map RCLink.size_unique).sum := by
  unfold kdtree_expected Master.size
  rw [foldl_size_unique_range m m.links.length (le_refl _)]
  simp

/-! ## The guard of `kdtree` -/

/-- C1: for every block count `n ≥ 1`, the guard `n & (n - 1)` of `kdtree` is
non-zero, and `kdtree` prints the error and aborts, if and only if `n` is not
an exact power of two; `n = 3` aborts and every `n = 2 ^ m` passes the guard. -/
theorem kdtree_guard_rejects_exactly_non_powers_of_two {α : Type} (ext : Externals α)
    (master : Master α) (assigner : Assigner) (dim : Int) (domain : Bounds α) (bins : Nat)
    (wrap : Bool) (hn : 1 ≤ assigner.nblocks) :
    (kdtreeGuard assigner.nblocks = true ↔ ¬ ∃ m : ℕ, assigner.nblocks = 2 ^ m) ∧
    ((kdtree ext master assigner dim domain bins wrap).aborted = true
      ↔ ¬ ∃ m : ℕ, assigner.nblocks = 2 ^ m) ∧
    ((¬ ∃ m : ℕ, assigner.nblocks = 2 ^ m) →
      (kdtree ext master assigner dim domain bins wrap).calls
        = [Call.error_message assigner.nblocks, Call.abort]) ∧
    kdtreeGuard 3 = true ∧
    ∀ m : ℕ, kdtreeGuard (2 ^ m) = false := by
  have hg := kdtreeGuard_of_one_le assigner.nblocks hn
  refine ⟨hg, ?_, ?_, by decide, kdtreeGuard_two_pow⟩
  · rw [kdtree_aborted_eq_guard]
    exact hg
  · intro hnot
    have hgt : kdtreeGuard assigner.nblocks = true := hg.2 hnot
    simp [kdtree, hgt]

/-- C1 at `nblocks = 3`: `kdtree` aborts, and `3` is not a power of two. -/
theorem kdtree_guard_rejects_exactly_non_powers_of_two_witness :
    (1 : Int) ≤ (Assigner.mk 1 3).nblocks ∧
    (kdtree idle_externals example_master (Assigner.mk 1 3) 3 example_domain 64 false).aborted
      = true ∧
    ¬ ∃ m : ℕ, (Assigner.mk 1 3).nblocks = 2 ^ m :=
  ⟨by decide, by decide,
    (kdtree_guard_rejects_exactly_non_powers_of_two idle_externals example_master
      (Assigner.mk 1 3) 3 example_domain 64 false (by decide)).2.1.1 (by decide)⟩

/-- C2 at `nblocks = 0`: the guard `0 & (0 - 1)` is zero, so `kdtree` does not
abort and goes on to the reduce, although `0` is not a power of two. -/
theorem kdtree_guard_accepts_zero_blocks :
    kdtreeGuard (Assigner.mk 1 0).nblocks = false ∧
    (kdtree idle_externals example_master (Assigner.mk 1 0) 3 example_domain 64 false).aborted
      = false ∧
    (kdtree idle_externals example_master (Assigner.mk 1 0) 3 example_domain 64 false).calls
      = [Call.reduce (kdtree_set_domain example_domain example_master)] ∧
    ¬ ∃ m : ℕ, (Assigner.mk 1 0).nblocks = 2 ^ m := by
  have hz : kdtreeGuard (Assigner.mk 1 0).nblocks = false := kdtreeGuard_zero
  refine ⟨hz, ?_, ?_, ?_⟩
  · rw [kdtree_aborted_eq_guard]
    exact hz
  · simp [kdtree, hz]
  · rintro ⟨m, hm⟩
    have hpos := pow_pos (by norm_num : (0 : Int) < 2) m
    have h0 : (0 : Int) = 2 ^ m := hm
    omega

/-- C3: whenever `kdtree` aborts, the block count is not a power of two and
the master is exactly as it was before the call (every link with its core and
bounds, the expected count, the immediate flag); the only calls made are the
error message and the abort, so reduce has not been invoked. -/
theorem kdtree_abort_precedes_every_mutation {α : Type} (ext : Externals α)
    (master : Master α) (assigner : Assigner) (dim : Int) (domain : Bounds α) (bins : Nat)
    (wrap : Bool)
    (h : (kdtree ext master assigner dim domain bins wrap).aborted = true) :
    (¬ ∃ m : ℕ, assigner.nblocks = 2 ^ m) ∧
    (kdtree ext master assigner dim domain bins wrap).master = master ∧
    (kdtree ext master assigner dim domain bins wrap).calls
      = [Call.error_message assigner.nblocks, Call.abort] ∧
    (∀ m, Call.reduce m ∉ (kdtree ext master assigner dim domain bins wrap).calls) ∧
    (∀ m, Call.all_to_all m ∉ (kdtree ext master assigner dim domain bins wrap).calls) := by
  have hg : kdtreeGuard assigner.nblocks = true := by
    rw [← kdtree_aborted_eq_guard ext master assigner dim domain bins wrap]
    exact h
  refine ⟨?_, ?_, ?_, ?_, ?_⟩
  · rintro ⟨m, hm⟩
    rw [hm, kdtreeGuard_two_pow] at hg
    exact Bool.false_ne_true hg
  all_goals simp [kdtree, hg]

/-- C3 at `nblocks = 3`: the aborted run returns the example master as it was. -/
theorem kdtree_abort_precedes_every_mutation_witness :
    (kdtree idle_externals example_master (Assigner.mk 1 3) 3 example_domain 64 false).aborted
      = true ∧
    (kdtree idle_externals example_master (Assigner.mk 1 3) 3 example_domain 64 false).master
      = example_master :=
  ⟨by decide,
    (kdtree_abort_precedes_every_mutation idle_externals example_master (Assigner.mk 1 3) 3
      example_domain 64 false (by decide)).2.1⟩

/-! ## What `kdtree` does when the guard passes -/

/-- C4: when `kdtree` returns normally, the links of the master are those left
by the reduce and the expected count is the sum over the local links of
`size_unique()`, the number of distinct target gids of each link; for zero
local blocks it is `0`.  The count before the call does not enter: if the
links left by the reduce do not depend on it, neither does the result. -/
theorem kdtree_expected_is_sum_of_unique_sizes {α : Type} (ext : Externals α)
    (master : Master α) (assigner : Assigner) (dim : Int) (domain : Bounds α) (bins : Nat)
    (wrap : Bool)
    (h : (kdtree ext master assigner dim domain bins wrap).aborted = false) :
    (kdtree ext master assigner dim domain bins wrap).master.links
      = (ext.reduce_kdtree assigner
          { dim := dim, nblocks := assigner.nblocks, wrap := wrap, domain := domain }
          { dim := dim, bins := bins } (kdtree_set_domain domain master)).links ∧
    (kdtree ext master assigner dim domain bins wrap).master.expected
      = (((kdtree ext master assigner dim domain bins wrap).master.links).map
          fun link => ((link.neighbors.map BlockID.gid).toFinset.card : Int)).sum ∧
    ((kdtree ext master assigner dim domain bins wrap).master.links = [] →
      (kdtree ext master assigner dim domain bins wrap).master.expected = 0) ∧
    ((∀ (m : Master α) (e : Int),
        (ext.reduce_kdtree assigner
          { dim := dim, nblocks := assigner.nblocks, wrap := wrap, domain := domain }
          { dim := dim, bins := bins } (m.set_expected e)).links
        = (ext.reduce_kdtree assigner
          { dim := dim, nblocks := assigner.nblocks, wrap := wrap, domain := domain }
          { dim := dim, bins := bins } m).links) →
      ∀ e : Int,
        (kdtree ext (master.set_expected e) assigner dim domain bins wrap).master.expected
          = (kdtree ext master assigner dim domain bins wrap).master.expected) := by
  have hg : kdtreeGuard assigner.nblocks = false := by
    rw [← kdtree_aborted_eq_guard ext master assigner dim domain bins wrap]
    exact h
  have hsu : ∀ link : RCLink α,
      link.size_unique = ((link.neighbors.map BlockID.gid).toFinset.card : Int) := by
    intro link
    simp [RCLink.size_unique, List.card_toFinset]
  have hexp : ∀ m : Master α,
      (kdtree ext m assigner dim domain bins wrap).master.expected
        = ((ext.reduce_kdtree assigner
            { dim := dim, nblocks := assigner.nblocks, wrap := wrap, domain := domain }
            { dim := dim, bins := bins } (kdtree_set_domain domain m)).links.map
            RCLink.size_unique).sum := by
    intro m
    simp [kdtree, hg, Master.set_expected, kdtree_expected_eq]
  have hlinks : (kdtree ext master assigner dim domain bins wrap).master.links
      = (ext.reduce_kdtree assigner
          { dim := dim, nblocks := assigner.nblocks, wrap := wrap, domain := domain }
          { dim := dim, bins := bins } (kdtree_set_domain domain master)).links := by
    simp [kdtree, hg, Master.set_expected]
  refine ⟨hlinks, ?_, ?_, ?_⟩
  · rw [hexp, hlinks]
    exact congrArg List.sum (List.map_congr_left fun link _ => hsu link)
  · intro hnil
    rw [hexp, ← hlinks, hnil]
    rfl
  · intro hframe e
    rw [hexp, hexp]
    have hset : kdtree_set_domain domain (master.set_expected e)
        = (kdtree_set_domain domain master).set_expected e := by
      simp [kdtree_set_domain_eq, Master.set_expected]
    rw [hset, hframe]

/-- C4 on the example master with `nblocks = 2`: each of the two links lists
its own gid six times, so the expected count is `1 + 1 = 2`, not the `7` set
before the call. -/
theorem kdtree_expected_is_sum_of_unique_sizes_witness :
    (kdtree idle_externals example_master (Assigner.mk 1 2) 3 example_domain 64 true).aborted
      = false ∧
    example_master.expected = 7 ∧
    (kdtree idle_externals example_master (Assigner.mk 1 2) 3 example_domain 64
      true).master.expected = 2 := by
  have h := kdtree_expected_is_sum_of_unique_sizes idle_externals example_master
    (Assigner.mk 1 2) 3 example_domain 64 true (by decide)
  refine ⟨by decide, rfl, ?_⟩
  rw [h.2.1, h.1, kdtree_set_domain_eq]
  decide

/-- C9: for every power-of-two block count, the only call `kdtree` makes is
the reduce, and the master the reduce receives, from which the returned master
is computed, is the master of the call with, at every local index, the core
and the bounds of the link replaced by the domain, whatever they were; the
other fields of each link, the number of links, the expected count and the
immediate flag are as before, and no index outside `0 .. size() - 1` holds a
link before or after. -/
theorem kdtree_resets_links_to_domain_before_reduce {α : Type} (ext : Externals α)
    (master : Master α) (assigner : Assigner) (dim : Int) (domain : Bounds α) (bins : Nat)
    (wrap : Bool) (k : ℕ) (hn : assigner.nblocks = 2 ^ k) :
    (kdtree ext master assigner dim domain bins wrap).aborted = false ∧
    (kdtree ext master assigner dim domain bins wrap).calls
      = [Call.reduce (kdtree_set_domain domain master)] ∧
    (kdtree_set_domain domain master).links
      = master.links.map (fun link => { link with core := domain, bounds := domain }) ∧
    (∀ link ∈ (kdtree_set_domain domain master).links,
      link.core = domain ∧ link.bounds = domain) ∧
    (kdtree_set_domain domain master).size = master.size ∧
    (∀ i : Nat, master.size ≤ i →
      (kdtree_set_domain domain master).links[i]? = master.links[i]?) ∧
    (kdtree_set_domain domain master).expected = master.expected ∧
    (kdtree_set_domain domain master).immediate = master.immediate ∧
    (kdtree ext master assigner dim domain bins wrap).master
      = (ext.reduce_kdtree assigner
          { dim := dim, nblocks := assigner.nblocks, wrap := wrap, domain := domain }
          { dim := dim, bins := bins }
          { links := master.links.map
              (fun link => { link with core := domain, bounds := domain })
            expected := master.expected
            immediate := master.immediate }).set_expected
        (kdtree_expected
          (ext.reduce_kdtree assigner
            { dim := dim, nblocks := assigner.nblocks, wrap := wrap, domain := domain }
            { dim := dim, bins := bins }
            { links := master.links.map
                (fun link => { link with core := domain, bounds := domain })
              expected := master.expected
              immediate := master.immediate })) ∧
    (kdtree ext master assigner dim domain bins wrap).calls
      = [Call.reduce
          { links := master.links.map
              (fun link => { link with core := domain, bounds := domain })
            expected := master.expected
            immediate := master.immediate }] ∧
    (∀ (i : Nat) (link : RCLink α), master.links[i]? = some link →
      (kdtree_set_domain domain master).links[i]?
        = some { dim := link.dim, core := domain, bounds := domain,
                 neighbors := link.neighbors, directions := link.directions,
                 nbr_bounds := link.nbr_bounds }) := by
  have hg : kdtreeGuard assigner.nblocks = false := by
    rw [hn]
    exact kdtreeGuard_two_pow k
  have hset : kdtree_set_domain domain master
      = { links := master.links.map
            (fun link => { link with core := domain, bounds := domain })
          expected := master.expected
          immediate := master.immediate } := by
    rw [kdtree_set_domain_eq]
  refine ⟨?_, ?_, ?_, ?_, ?_, ?_, ?_, ?_, ?_, ?_, ?_⟩
  · rw [kdtree_aborted_eq_guard]
    exact hg
  · simp [kdtree, hg]
  · rw [kdtree_set_domain_eq]
  · rw [kdtree_set_domain_eq]
    intro link hl
    simp only [List.mem_map] at hl
    obtain ⟨l0, _, rfl⟩ := hl
    exact ⟨rfl, rfl⟩
  · rw [kdtree_set_domain_eq]
    simp [Master.size]
  · intro i hi
    rw [kdtree_set_domain_eq]
    simp only [Master.size] at hi
    rw [List.getElem?_eq_none (by simpa using hi), List.getElem?_eq_none hi]
  · rw [kdtree_set_domain_eq]
  · rw [kdtree_set_domain_eq]
  · rw [← hset]
    simp [kdtree, hg]
  · rw [← hset]
    simp [kdtree, hg]
  · intro i link hl
    rw [hset]
    simp only [List.getElem?_map, hl, Option.map_some']

/-- C9 with `nblocks = 4 = 2 ^ 2` on a master whose links hold the two halves
of the domain: before the call the extents along dimension 0 are `[0, 500]`
and `[500, 1000]`; the master returned through collaborators that leave their
argument alone has `[0, 1000]` as core and bounds of both links, with the six
and zero neighbor entries they had. -/
theorem kdtree_resets_links_to_domain_before_reduce_witness :
    (Assigner.mk 1 4).nblocks = 2 ^ 2 ∧
    example_stale_master.links.map
        (fun link => (link.bounds.min 0, link.bounds.max 0, link.core.min 0, link.core.max 0,
          link.neighbors.length))
      = [(0, 500, 0, 500, 6), (500, 1000, 500, 1000, 0)] ∧
    (kdtree idle_externals example_stale_master (Assigner.mk 1 4) 3 example_domain 64
        false).master.links.map
        (fun link => (link.bounds.min 0, link.bounds.max 0, link.core.min 0, link.core.max 0,
          link.neighbors.length))
      = [(0, 1000, 0, 1000, 6), (0, 1000, 0, 1000, 0)] := by
  have h := kdtree_resets_links_to_domain_before_reduce idle_externals example_stale_master
    (Assigner.mk 1 4) 3 example_domain 64 false 2 (by decide)
  refine ⟨by decide, by decide, ?_⟩
  rw [h.2.2.2.2.2.2.2.2.1]
  decide

/-! ## The immediate flag in `sort` -/

/-- C10: `sort` calls its swap-reduce on the master with the immediate flag
set to false and returns with the flag at the value it had before the call,
for both values of `samples_only`.  With `samples_only = true` the reduce is
the only call; with `samples_only = false` the all_to_all follows on the
master left by the reduce, whose flag is still false when the reduce leaves
the flag alone (`sort` itself does not write it in between). -/
theorem sort_runs_with_immediate_off_and_restores_it {α : Type} (ext : Externals α)
    (master : Master α) (assigner : Assigner) (num_samples : Nat) (k : Int) :
    (master.set_immediate false).immediate = false ∧
    (∀ samples_only : Bool,
      (sort ext master assigner num_samples k samples_only).master.immediate
        = master.immediate ∧
      (sort ext master assigner num_samples k samples_only).aborted = false) ∧
    (sort ext master assigner num_samples k true).calls
      = [Call.reduce (master.set_immediate false)] ∧
    (∀ m, Call.all_to_all m ∉ (sort ext master assigner num_samples k true).calls) ∧
    (sort ext master assigner num_samples k true).master
      = (ext.reduce_sample assigner { dim := 1, nblocks := assigner.nblocks, k := k }
          { num_samples := num_samples } (master.set_immediate false)).set_immediate
          master.immediate ∧
    (sort ext master assigner num_samples k false).calls
      = [Call.reduce (master.set_immediate false),
         Call.all_to_all
          (ext.reduce_sample assigner { dim := 1, nblocks := assigner.nblocks, k := k }
            { num_samples := num_samples } (master.set_immediate false))] ∧
    (sort ext master assigner num_samples k false).master
      = (ext.all_to_all assigner { num_samples := num_samples } k
          (ext.reduce_sample assigner { dim := 1, nblocks := assigner.nblocks, k := k }
            { num_samples := num_samples } (master.set_immediate false))).set_immediate
          master.immediate ∧
    ((∀ (a : Assigner) (p : RegularSwapPartners) (s : SampleSort) (m : Master α),
        (ext.reduce_sample a p s m).immediate = m.immediate) →
      (ext.reduce_sample assigner { dim := 1, nblocks := assigner.nblocks, k := k }
        { num_samples := num_samples } (master.set_immediate false)).immediate = false) := by
  refine ⟨rfl, ?_, rfl, ?_, rfl, rfl, rfl, ?_⟩
  · intro samples_only
    cases samples_only <;> exact ⟨rfl, rfl⟩
  · intro m hm
    simp [sort] at hm
  · intro hframe
    rw [hframe]
    rfl

/-- C10 on the example master, whose flag is true: both variants return with
the flag true again, and the all_to_all of the full variant sees it false. -/
theorem sort_runs_with_immediate_off_and_restores_it_witness :
    example_master.immediate = true ∧
    (sort idle_externals example_master (Assigner.mk 1 4) 8 2 true).master.immediate = true ∧
    (sort idle_externals example_master (Assigner.mk 1 4) 8 2 false).master.immediate = true ∧
    (idle_externals.reduce_sample (Assigner.mk 1 4)
      { dim := 1, nblocks := (Assigner.mk 1 4).nblocks, k := 2 } { num_samples := 8 }
      (example_master.set_immediate false)).immediate = false :=
  have h := sort_runs_with_immediate_off_and_restores_it idle_externals example_master
    (Assigner.mk 1 4) 8 2
  ⟨rfl, (h.2.1 true).1, (h.2.1 false).1, h.2.2.2.2.2.2.2 (fun _ _ _ _ => rfl)⟩

/-! ## The example's `intersects` and initial links -/

/-- C7: without wrap, for two boxes whose extents along `d` are non-empty,
`intersects` is true if and only if the closed extents `[x.min d, x.max d]`
and `[y.min d, y.max d]` share a coordinate; extents that only touch at one
value intersect, and the domain plays no part. -/
theorem intersects_iff_closed_extents_meet {α : Type} [LinearOrder α] (x y domain : Bounds α)
    (d : Nat) (hx : x.min d ≤ x.max d) (hy : y.min d ≤ y.max d) :
    (intersects x y d false domain = true
      ↔ ∃ c : α, (x.min d ≤ c ∧ c ≤ x.max d) ∧ (y.min d ≤ c ∧ c ≤ y.max d)) ∧
    (x.max d = y.min d → intersects x y d false domain = true) ∧
    (y.max d = x.min d → intersects x y d false domain = true) ∧
    (∀ domain2 : Bounds α, intersects x y d false domain2 = intersects x y d false domain) := by
  have hval : ∀ dom : Bounds α, intersects x y d false dom
      = (decide (x.min d ≤ y.max d) && decide (y.min d ≤ x.max d)) := by
    intro dom
    simp [intersects]
  refine ⟨?_, ?_, ?_, ?_⟩
  · rw [hval]
    simp only [Bool.and_eq_true, decide_eq_true_eq]
    constructor
    · rintro ⟨h1, h2⟩
      refine ⟨max (x.min d) (y.min d), ⟨le_max_left _ _, max_le hx h2⟩,
        ⟨le_max_right _ _, max_le h1 hy⟩⟩
    · rintro ⟨c, ⟨h1, h2⟩, ⟨h3, h4⟩⟩
      exact ⟨le_trans h1 h4, le_trans h3 h2⟩
  · intro h
    rw [hval]
    simp only [Bool.and_eq_true, decide_eq_true_eq]
    exact ⟨le_trans hx (h ▸ hy), h ▸ le_refl _⟩
  · intro h
    rw [hval]
    simp only [Bool.and_eq_true, decide_eq_true_eq]
    exact ⟨h ▸ le_refl _, le_trans hy (h ▸ hx)⟩
  · intro domain2
    rw [hval, hval]

/-- C7 on the two halves of the example domain, which touch at `500` along
dimension 0: they intersect, and `500` is a shared coordinate. -/
theorem intersects_iff_closed_extents_meet_witness :
    example_box_low.max 0 = example_box_high.min 0 ∧
    intersects example_box_low example_box_high 0 false example_domain = true ∧
    ∃ c : Int, (example_box_low.min 0 ≤ c ∧ c ≤ example_box_low.max 0) ∧
      (example_box_high.min 0 ≤ c ∧ c ≤ example_box_high.max 0) :=
  have h := intersects_iff_closed_extents_meet example_box_low example_box_high example_domain 0
    (by decide) (by decide)
  ⟨by decide, h.2.1 (by decide), h.1.1 (h.2.1 (by decide))⟩

/-- C8: in wrap mode the link built by `main` for a gid has `2 * DIM = 6`
entries in each of its three fields (one `add_neighbor`, `add_direction` and
`add_bounds` per iteration); every target is the block itself on its own rank,
every neighbor bounds is the whole domain, and the direction tags
`1 << (2 * j + k)` are `1, 2, 4, 8, 16, 32`, pairwise distinct and each a
single bit.  Without wrap the link has no entry.  In both modes the core and
the bounds of the link are the domain. -/
theorem initial_link_wrap_entries {α : Type} (gid rank : Int) (domain : Bounds α) :
    (initial_link true gid rank domain).neighbors
      = List.replicate (2 * DIM) { gid := gid, proc := rank } ∧
    (initial_link true gid rank domain).nbr_bounds = List.replicate (2 * DIM) domain ∧
    (initial_link true gid rank domain).directions = [1, 2, 4, 8, 16, 32] ∧
    (initial_link true gid rank domain).directions
      = (List.range DIM).flatMap (fun j => (List.range 2).map fun k => 1 <<< (2 * j + k)) ∧
    (initial_link true gid rank domain).neighbors.length = 6 ∧
    (initial_link true gid rank domain).directions.length = 6 ∧
    (initial_link true gid rank domain).nbr_bounds.length = 6 ∧
    (initial_link true gid rank domain).directions.Nodup ∧
    (∀ dir ∈ (initial_link true gid rank domain).directions, ∃ bit : ℕ, dir = 2 ^ bit) ∧
    (initial_link false gid rank domain).neighbors = [] ∧
    (initial_link false gid rank domain).directions = [] ∧
    (initial_link false gid rank domain).nbr_bounds = [] ∧
    (∀ wrap : Bool,
      (initial_link wrap gid rank domain).core = domain ∧
      (initial_link wrap gid rank domain).bounds = domain) := by
  have hdirs : (initial_link true gid rank domain).directions = [1, 2, 4, 8, 16, 32] := rfl
  refine ⟨rfl, rfl, hdirs, rfl, rfl, rfl, rfl, ?_, ?_, rfl, rfl, rfl, ?_⟩
  · rw [hdirs]
    decide
  · rw [hdirs]
    intro dir hdir
    simp only [List.mem_cons, List.mem_singleton, List.not_mem_nil, or_false] at hdir
    rcases hdir with rfl | rfl | rfl | rfl | rfl | rfl
    exacts [⟨0, rfl⟩, ⟨1, rfl⟩, ⟨2, rfl⟩, ⟨3, rfl⟩, ⟨4, rfl⟩, ⟨5, rfl⟩]
  · intro wrap
    cases wrap <;> exact ⟨rfl, rfl⟩

/-! ## Links after the rebuild -/

theorem adjacent_along_comm {α : Type} [LinearOrder α] (dims : Nat) (x y : Bounds α) (d : Nat) :
    adjacent_along dims x y d = adjacent_along dims y x d := by
  unfold adjacent_along
  have h1 : (fun j => decide (x.min j ≤ y.max j) && decide (y.min j ≤ x.max j))
      = (fun j => decide (y.min j ≤ x.max j) && decide (x.min j ≤ y.max j)) := by
    funext j
    exact Bool.and_comm _ _
  rw [h1, Bool.or_comm]

theorem mem_rebuild_targets {α : Type} [LinearOrder α] (dims nblocks : Nat)
    (leaf : Nat → Bounds α) (a g : Nat) :
    g ∈ rebuild_targets dims nblocks leaf a ↔
      g < nblocks ∧ g ≠ a ∧
        ((List.range dims).any fun d => adjacent_along dims (leaf a) (leaf g) d) = true := by
  simp [rebuild_targets, and_assoc]

theorem mem_rebuild_targets_symm {α : Type} [LinearOrder α] (dims nblocks : Nat)
    (leaf : Nat → Bounds α) (a g : Nat) (ha : a < nblocks)
    (hg : g ∈ rebuild_targets dims nblocks leaf a) :
    a ∈ rebuild_targets dims nblocks leaf g := by
  rw [mem_rebuild_targets] at hg ⊢
  refine ⟨ha, fun h => hg.2.1 h.symm, ?_⟩
  have h2 : (fun d => adjacent_along dims (leaf g) (leaf a) d)
      = (fun d => adjacent_along dims (leaf a) (leaf g) d) := by
    funext d
    exact adjacent_along_comm dims (leaf g) (leaf a) d
  rw [h2]
  exact hg.2.2

theorem bounds_not_equal_self {α : Type} [DecidableEq α] (x : Bounds α) :
    Bounds.not_equal x x = false := by
  simp [Bounds.not_equal, Bounds.equal]

/-- C6: after the link rebuild without wrap, every entry of the link of a
block `a` names another block `b` and records the final bounds of `b`, and the
link of `b` has an entry for `a` that records the final bounds of `a`; the
three fields of the link have the same length, and the neighbor-bounds test
of `verify_block` is false at every entry, so no "bounds don't match" warning
is printed. -/
theorem rebuilt_links_are_symmetric_with_matching_bounds {α : Type} [LinearOrder α]
    (dims nblocks : Nat) (rank_of : Nat → Int) (direction_of : Bounds α → Bounds α → Nat)
    (leaf : Nat → Bounds α) (old : Nat → RCLink α) (a : Nat) (ha : a < nblocks) :
    (∀ (target : BlockID) (recorded : Bounds α),
      (target, recorded) ∈
          (rebuild_link dims nblocks rank_of direction_of leaf a (old a)).neighbors.zip
            (rebuild_link dims nblocks rank_of direction_of leaf a (old a)).nbr_bounds →
        ∃ b : Nat, b < nblocks ∧ b ≠ a ∧ target = { gid := (b : Int), proc := rank_of b } ∧
          recorded = (rebuild_link dims nblocks rank_of direction_of leaf b (old b)).bounds ∧
          (({ gid := (a : Int), proc := rank_of a } : BlockID),
              (rebuild_link dims nblocks rank_of direction_of leaf a (old a)).bounds) ∈
            (rebuild_link dims nblocks rank_of direction_of leaf b (old b)).neighbors.zip
              (rebuild_link dims nblocks rank_of direction_of leaf b (old b)).nbr_bounds) ∧
    ((rebuild_link dims nblocks rank_of direction_of leaf a (old a)).directions.length
        = (rebuild_link dims nblocks rank_of direction_of leaf a (old a)).neighbors.length ∧
      (rebuild_link dims nblocks rank_of direction_of leaf a (old a)).nbr_bounds.length
        = (rebuild_link dims nblocks rank_of direction_of leaf a (old a)).neighbors.length) ∧
    (∀ i : Nat,
      i < (rebuild_link dims nblocks rank_of direction_of leaf a (old a)).neighbors.length →
      neighbor_bounds_mismatch (rebuild_link dims nblocks rank_of direction_of leaf a (old a))
        (gathered_block_bounds nblocks fun g =>
          rebuild_link dims nblocks rank_of direction_of leaf g (old g)) i
        = some false) := by
  refine ⟨?_, ⟨by simp [rebuild_link], by simp [rebuild_link]⟩, ?_⟩
  · intro target recorded hmem
    simp only [rebuild_link, List.zip_map', List.mem_map] at hmem
    obtain ⟨b, hb, hpair⟩ := hmem
    have hb2 := (mem_rebuild_targets dims nblocks leaf a b).1 hb
    have hsymm := mem_rebuild_targets_symm dims nblocks leaf a b ha hb
    refine ⟨b, hb2.1, hb2.2.1, (congrArg Prod.fst hpair).symm, (congrArg Prod.snd hpair).symm, ?_⟩
    simp only [rebuild_link, List.zip_map', List.mem_map]
    exact ⟨a, hsymm, rfl⟩
  · intro i hi
    simp only [rebuild_link, List.length_map] at hi
    have hmem : (rebuild_targets dims nblocks leaf a)[i] ∈ rebuild_targets dims nblocks leaf a :=
      List.getElem_mem hi
    have hlt := ((mem_rebuild_targets dims nblocks leaf a _).1 hmem).1
    simp only [neighbor_bounds_mismatch, rebuild_link, gathered_block_bounds, List.getElem?_map,
      List.getElem?_eq_getElem hi, Option.map_some']
    have hneg : ¬ (((rebuild_targets dims nblocks leaf a)[i] : Nat) : Int) < 0 := by omega
    simp only [hneg, if_false, Int.toNat_ofNat, List.getElem?_range hlt, Option.map_some',
      bounds_not_equal_self]

/-- C6 on two blocks that hold the two halves of the example domain: block 0
lists block 1 with the upper half, and block 1 lists block 0. -/
theorem rebuilt_links_are_symmetric_with_matching_bounds_witness :
    (0 : Nat) < 2 ∧
    (rebuild_link 3 2 (fun _ => 0) (fun _ _ => 0) example_leaf 0
      (initial_link false 0 0 example_domain)).neighbors = [{ gid := 1, proc := 0 }] ∧
    neighbor_bounds_mismatch
      (rebuild_link 3 2 (fun _ => 0) (fun _ _ => 0) example_leaf 0
        (initial_link false 0 0 example_domain))
      (gathered_block_bounds 2 fun g =>
        rebuild_link 3 2 (fun _ => 0) (fun _ _ => 0) example_leaf g
          (initial_link false g 0 example_domain)) 0 = some false :=
  ⟨by decide, by decide,
    (rebuilt_links_are_symmetric_with_matching_bounds 3 2 (fun _ => 0) (fun _ _ => 0)
      example_leaf (fun g => initial_link false g 0 example_domain) 0 (by decide)).2.2 0
      (by decide)⟩

end Diy
